import Mathlib

/-!
Shallow embedding of the authentication and task-management core of the
interactive-todo backend (Go).  Pure Lean models of:

  * the refresh-token ledger (backend/internal/store/refresh_tokens/refresh_token_store.go),
  * the JWT manager (internal/auth/jwt, JWTManager with golang-jwt v5 parser options),
  * the auth handler (internal/handler/auth: Login, RefreshAccessToken,
    LogoutFromAllDevices, rotateRefresh),
  * the team store (backend/internal/store/teams/team_store.go, CreateTeam),
  * the task store and task handler
    (backend/internal/store/tasks/tasks_store.go,
     backend/internal/handler/task_handler/task_handler.go).

Go time.Time values are modelled as integer timestamps; Go's a.Before(b)
is a < b.  uuid.UUID is modelled as Nat with 0 playing the role of
uuid.Nil.  Database tables are lists of rows; a SQL UPDATE is a map over
the list, the number of affected rows is the count of matching rows, and
QueryRow / SELECT ... LIMIT 1 is List.find?.  Fallible Go functions
return Except.
-/

namespace InteractiveTodo

/-- Timestamps in seconds; Go time.Time.  a.Before(b) is a < b. -/
abbrev Instant := Int

/-- Identifiers (uuid.UUID); 0 plays the role of uuid.Nil. -/
abbrev Uuid := Nat

/-! ## Go string helpers (strings.ToLower, strings.TrimSpace,
strings.Contains), modelled as structurally recursive character-list
operations -/

/-- Go strings.ToLower: lowercase every character. -/
def toLowerStr (s : String) : String := ⟨s.data.map Char.toLower⟩

/-- Go strings.TrimSpace: drop leading and trailing whitespace. -/
def trimStr (s : String) : String :=
  ⟨((s.data.dropWhile Char.isWhitespace).reverse.dropWhile
      Char.isWhitespace).reverse⟩

/-- Go strings.Contains with a one-character needle. -/
def containsChar (s : String) (c : Char) : Bool := s.data.contains c

/-! ## Refresh-token ledger: rows of auth_refresh_tokens -/

/-- One row of the auth_refresh_tokens table (Go struct RefreshToken in
refresh_token_store.go). -/
structure RefreshToken where
  id : Uuid
  userId : Uuid
  tokenHash : String
  issuedAt : Instant
  expiresAt : Instant
  revokedAt : Option Instant
  userAgent : String
  ip : String
deriving Repr, DecidableEq

/-- The auth_refresh_tokens table, in insertion order. -/
abbrev Ledger := List RefreshToken

/-- Failure reasons of PGRefreshTokenStore.GetByHash: ErrTokenNotFound,
errors.New with message token has been revoked, and errors.New with message
token has expired. -/
inductive TokenErr where
  | notFound
  | revoked
  | expired
deriving Repr, DecidableEq

/-- PGRefreshTokenStore.GetByHash: SELECT the row with the given token_hash
(QueryRow = first match); absent row gives ErrTokenNotFound; a set
revoked_at gives the revoked error; ExpiresAt.Before(now) gives the expired
error; otherwise the row is returned. -/
def getByHash (l : Ledger) (tokenHash : String) (now : Instant) :
    Except TokenErr RefreshToken :=
  match l.find? (fun t => t.tokenHash == tokenHash) with
  | none => .error .notFound
  | some t =>
      if t.revokedAt.isSome then .error .revoked
      else if t.expiresAt < now then .error .expired
      else .ok t

/-- Error of Revoke / RevokeAllForUser when the UPDATE affected no row
(errors.New with message not found). -/
inductive RevokeErr where
  | noRowsAffected
deriving Repr, DecidableEq

/-- Row predicate of the UPDATE in PGRefreshTokenStore.Revoke:
token_hash matches and revoked_at IS NULL. -/
def revokeMatches (t : RefreshToken) (tokenHash : String) : Bool :=
  t.tokenHash == tokenHash && t.revokedAt.isNone

/-- PGRefreshTokenStore.Revoke: UPDATE auth_refresh_tokens SET revoked_at
WHERE token_hash matches AND revoked_at IS NULL; if RowsAffected is 0 the
call fails with the not-found error (and the table is unchanged, since no
row matched). -/
def revoke (l : Ledger) (tokenHash : String) (now : Instant) :
    Except RevokeErr Ledger :=
  let affected := (l.filter (fun t => revokeMatches t tokenHash)).length
  let updated := l.map (fun t =>
    if revokeMatches t tokenHash then { t with revokedAt := some now } else t)
  if affected == 0 then .error .noRowsAffected else .ok updated

/-- Row predicate of the UPDATE in PGRefreshTokenStore.RevokeAllForUser:
user_id matches and revoked_at IS NULL. -/
def revokeAllMatches (t : RefreshToken) (userId : Uuid) : Bool :=
  t.userId == userId && t.revokedAt.isNone

/-- PGRefreshTokenStore.RevokeAllForUser: UPDATE ... SET revoked_at WHERE
user_id matches AND revoked_at IS NULL; fails with the not-found error when
RowsAffected is 0. -/
def revokeAllForUser (l : Ledger) (userId : Uuid) (now : Instant) :
    Except RevokeErr Ledger :=
  let affected := (l.filter (fun t => revokeAllMatches t userId)).length
  let updated := l.map (fun t =>
    if revokeAllMatches t userId then { t with revokedAt := some now } else t)
  if affected == 0 then .error .noRowsAffected else .ok updated

/-- The table state after a committed RevokeAllForUser UPDATE.  It equals
the table also when the call reported the zero-rows-affected error (the
UPDATE then changed nothing), but not when the Exec itself failed and the
UPDATE never ran. -/
def revokeAllState (l : Ledger) (userId : Uuid) (now : Instant) : Ledger :=
  l.map (fun t =>
    if revokeAllMatches t userId then { t with revokedAt := some now } else t)

/-- Validation error of PGRefreshTokenStore.Create (errors.New with message
expiration must be in future). -/
inductive CreateErr where
  | expirationNotInFuture
deriving Repr, DecidableEq

/-- PGRefreshTokenStore.Create: rejects expiresAt.Before(now); otherwise
INSERTs a fresh row carrying only the caller-supplied token hash (the store
never sees the raw token) and returns it. -/
def createToken (l : Ledger) (freshId : Uuid) (userId : Uuid)
    (tokenHash : String) (now expiresAt : Instant) (userAgent ip : String) :
    Except CreateErr (RefreshToken × Ledger) :=
  if expiresAt < now then .error .expirationNotInFuture
  else
    let t : RefreshToken :=
      { id := freshId, userId := userId, tokenHash := tokenHash,
        issuedAt := now, expiresAt := expiresAt, revokedAt := none,
        userAgent := userAgent, ip := ip }
    .ok (t, l ++ [t])

/-! ## JWT manager (internal/auth/jwt with golang-jwt v5 parser semantics) -/

/-- Signing algorithms; the Go code uses jwt.SigningMethodHS256. -/
inductive Alg where
  | HS256
  | HS384
  | HS512
  | RS256
deriving Repr, DecidableEq

/-- Claims embedded in a JWT (Go struct Claims: UserID, Email, UserType plus
jwt.RegisteredClaims).  Times are optional, as in RegisteredClaims. -/
structure JwtClaims where
  userId : Uuid
  email : String
  userType : String
  issuer : String
  audience : List String
  subject : String
  issuedAt : Option Instant
  notBefore : Option Instant
  expiresAt : Option Instant
deriving Repr, DecidableEq

/-- An HMAC signature, modelled as a perfect MAC: the signature records the
key, the algorithm and the signed payload, and verification is equality
with the recomputed value. -/
structure Sig where
  key : String
  alg : Alg
  payload : JwtClaims
deriving Repr, DecidableEq

/-- A serialized JWT: header algorithm, claims, signature. -/
structure Token where
  alg : Alg
  claims : JwtClaims
  sig : Sig
deriving Repr, DecidableEq

/-- Go struct Config for the JWT manager. -/
structure JwtConfig where
  accessSecret : String
  refreshSecret : String
  accessTokenExpiry : Int
  refreshTokenExpiry : Int
  issuer : String
deriving Repr, DecidableEq

/-- The audience list both Mint functions embed:
the singleton interactive todo frontend. -/
def frontendAudience : List String := ["interactive todo frontend"]

/-- JWTManager.MintAccessToken: claims carry user id, email, user type,
the configured issuer, the frontend audience, subject equal to the user id,
iat and nbf equal to now, exp equal to now plus AccessTokenExpiry; signed
HS256 with the access secret. -/
def mintAccessToken (cfg : JwtConfig) (userId : Uuid) (email userType : String)
    (now : Instant) : Token :=
  let c : JwtClaims :=
    { userId := userId, email := email, userType := userType,
      issuer := cfg.issuer, audience := frontendAudience,
      subject := toString userId, issuedAt := some now,
      notBefore := some now, expiresAt := some (now + cfg.accessTokenExpiry) }
  { alg := .HS256, claims := c, sig := { key := cfg.accessSecret, alg := .HS256, payload := c } }

/-- JWTManager.MintRefreshToken: same envelope, only the user id among the
custom fields (Email and UserType are Go zero values), exp equal to now
plus RefreshTokenExpiry, signed HS256 with the refresh secret. -/
def mintRefreshToken (cfg : JwtConfig) (userId : Uuid) (now : Instant) : Token :=
  let c : JwtClaims :=
    { userId := userId, email := "", userType := "",
      issuer := cfg.issuer, audience := frontendAudience,
      subject := toString userId, issuedAt := some now,
      notBefore := some now, expiresAt := some (now + cfg.refreshTokenExpiry) }
  { alg := .HS256, claims := c, sig := { key := cfg.refreshSecret, alg := .HS256, payload := c } }

/-- Failure modes of golang-jwt v5 parsing and claim validation. -/
inductive JwtErr where
  | algNotAllowed
  | badSignature
  | expMissing
  | expired
  | usedBeforeIssued
  | notYetValid
  | wrongIssuer
deriving Repr, DecidableEq

/-- Options of jwt.NewParser as used by ValidateAccessToken and
ValidateRefreshToken: WithValidMethods, WithIssuedAt,
WithExpirationRequired, WithIssuer, WithLeeway. -/
structure ParserOpts where
  validMethods : List Alg
  verifyIat : Bool
  requireExp : Bool
  expectedIssuer : Option String
  leeway : Int
deriving Repr, DecidableEq

/-- Issuer check of the v5 validator: runs only when WithIssuer configured
an expected issuer. -/
def validateIss (opts : ParserOpts) (c : JwtClaims) : Except JwtErr Unit :=
  match opts.expectedIssuer with
  | some iss => if c.issuer = iss then .ok () else .error .wrongIssuer
  | none => .ok ()

/-- Not-before check of the v5 validator: a present nbf must satisfy
nbf minus leeway le now; a missing nbf passes. -/
def validateNbf (opts : ParserOpts) (c : JwtClaims) (now : Instant) :
    Except JwtErr Unit :=
  match c.notBefore with
  | some n => if n - opts.leeway ≤ now then validateIss opts c else .error .notYetValid
  | none => validateIss opts c

/-- Issued-at check of the v5 validator: runs only under WithIssuedAt; a
present iat must satisfy iat minus leeway le now. -/
def validateIat (opts : ParserOpts) (c : JwtClaims) (now : Instant) :
    Except JwtErr Unit :=
  if opts.verifyIat then
    match c.issuedAt with
    | some i => if i - opts.leeway ≤ now then validateNbf opts c now else .error .usedBeforeIssued
    | none => validateNbf opts c now
  else validateNbf opts c now

/-- The registered-claim checks of the golang-jwt v5 validator with the
options above: exp must exist (WithExpirationRequired) and satisfy
now lt exp plus leeway; then the iat, nbf and issuer checks.  The v5
validator checks the audience only when an expected audience is
configured, and neither Validate function configures one, so no audience
check appears anywhere in this chain. -/
def validateClaims (opts : ParserOpts) (c : JwtClaims) (now : Instant) :
    Except JwtErr Unit :=
  match c.expiresAt with
  | some e => if now < e + opts.leeway then validateIat opts c now else .error .expired
  | none => if opts.requireExp then .error .expMissing else validateIat opts c now

/-- Parser.ParseWithClaims: reject a header algorithm outside
validMethods, verify the signature against the key returned by the
keyfunc, then run the validator on the claims. -/
def parseWithClaims (opts : ParserOpts) (key : String) (tok : Token)
    (now : Instant) : Except JwtErr JwtClaims :=
  if tok.alg ∉ opts.validMethods then .error .algNotAllowed
  else if tok.sig ≠ { key := key, alg := tok.alg, payload := tok.claims } then .error .badSignature
  else
    match validateClaims opts tok.claims now with
    | .error e => .error e
    | .ok _ => .ok tok.claims

/-- The parser options built inside ValidateAccessToken and
ValidateRefreshToken: valid methods HS256 only, WithIssuedAt,
WithExpirationRequired, WithIssuer of the configured issuer, leeway 30
seconds. -/
def managerParserOpts (cfg : JwtConfig) : ParserOpts :=
  { validMethods := [.HS256], verifyIat := true, requireExp := true,
    expectedIssuer := some cfg.issuer, leeway := 30 }

/-- JWTManager.ValidateAccessToken: parse with the manager options and the
access secret. -/
def validateAccessToken (cfg : JwtConfig) (tok : Token) (now : Instant) :
    Except JwtErr JwtClaims :=
  parseWithClaims (managerParserOpts cfg) cfg.accessSecret tok now

/-- JWTManager.ValidateRefreshToken: parse with the manager options and the
refresh secret. -/
def validateRefreshToken (cfg : JwtConfig) (tok : Token) (now : Instant) :
    Except JwtErr JwtClaims :=
  parseWithClaims (managerParserOpts cfg) cfg.refreshSecret tok now

/-! ## Auth handler (internal/handler/auth) -/

/-- What a handler did to the refresh_token cookie:
setRefreshTokenCookie, cleanRefreshToken, or nothing. -/
inductive CookieAction where
  | unchanged
  | set (value : String)
  | cleared
deriving Repr, DecidableEq

/-- Outcome of an auth-handler invocation: HTTP status, cookie action,
whether the body carries an access token, and the resulting ledger. -/
structure HttpResult where
  status : Nat
  cookie : CookieAction
  accessToken : Bool
  ledger : Ledger
deriving Repr, DecidableEq

/-- The handler collaborators the auth handler calls out to: sha256 hex
hashing of a raw token string, the jwt manager as an oracle, the user
store lookup, mint failures, and the freshly minted raw refresh token with
the request metadata. -/
structure AuthEnv where
  hashOf : String → String
  jwtValid : String → Bool
  userExists : Uuid → Bool
  mintAccessOk : Bool
  mintRefreshOk : Bool
  newRefreshToken : String
  freshId : Uuid
  userAgent : String
  ip : String

/-- Result of AuthHandler.rotateRefresh: success flag, cookie action, and
the ledger as left behind (each store call commits on its own, so a
failure after the revoke leaves the revoke in place). -/
structure RotateResult where
  ok : Bool
  cookie : CookieAction
  ledger : Ledger
deriving Repr, DecidableEq

/-- AuthHandler.rotateRefresh: revoke the old token hash, then mint a new
refresh token, insert its hash with a 7-day expiry, and set the cookie.
A failed revoke aborts before any insert; a failure later leaves the old
token revoked (fail closed). -/
def rotateRefresh (env : AuthEnv) (l : Ledger) (oldTokenHash : String)
    (userId : Uuid) (now : Instant) : RotateResult :=
  match revoke l oldTokenHash now with
  | .error _ => { ok := false, cookie := .unchanged, ledger := l }
  | .ok l1 =>
    if !env.mintRefreshOk then { ok := false, cookie := .unchanged, ledger := l1 }
    else
      match createToken l1 env.freshId userId (env.hashOf env.newRefreshToken)
          now (now + 7 * 24 * 3600) env.userAgent env.ip with
      | .error _ => { ok := false, cookie := .unchanged, ledger := l1 }
      | .ok (_, l2) => { ok := true, cookie := .set env.newRefreshToken, ledger := l2 }

/-- AuthHandler.RefreshAccessToken: read the refresh_token cookie (401 when
absent), validate the refresh JWT (401), hash it and look it up in the
ledger (401 on any GetByHash error), fetch the user (500), mint an access
token (500), rotate (500 on failure), else 200 with the rotated cookie. -/
def refreshAccessToken (env : AuthEnv) (cookie : Option String) (l : Ledger)
    (now : Instant) : HttpResult :=
  match cookie with
  | none => { status := 401, cookie := .unchanged, accessToken := false, ledger := l }
  | some raw =>
    if !env.jwtValid raw then
      { status := 401, cookie := .unchanged, accessToken := false, ledger := l }
    else
      match getByHash l (env.hashOf raw) now with
      | .error _ => { status := 401, cookie := .unchanged, accessToken := false, ledger := l }
      | .ok storedToken =>
        if !env.userExists storedToken.userId then
          { status := 500, cookie := .unchanged, accessToken := false, ledger := l }
        else if !env.mintAccessOk then
          { status := 500, cookie := .unchanged, accessToken := false, ledger := l }
        else
          let r := rotateRefresh env l storedToken.tokenHash storedToken.userId now
          if r.ok then
            { status := 200, cookie := r.cookie, accessToken := true, ledger := r.ledger }
          else
            { status := 500, cookie := .unchanged, accessToken := false, ledger := r.ledger }

/-- A row of the users table, as far as Login needs it. -/
structure User where
  id : Uuid
  email : String
  passwordHash : String
  userType : String
deriving Repr, DecidableEq

/-- AuthHandler.Login (the wired variant, with the one-session revocation):
decode the body (400 on bad json), normalize the email, reject a short or
at-sign-free email and a short password with InvalidCredentials (401),
look up the user (401 when absent), verify the password (500 on error, 401
on mismatch), mint both tokens (500 on failure), then call
RevokeAllForUser with its result discarded (Go writes
underscore-assign h.refreshStore.RevokeAllForUser): revokeExecOk says
whether that UPDATE actually executed — a failed Exec leaves the table
unchanged and the handler proceeds regardless — then insert the new token
hash with a 7-day expiry (500 on failure), set the cookie and answer
200. -/
def login (env : AuthEnv) (revokeExecOk : Bool)
    (body : Option (String × String)) (findUser : String → Option User)
    (verifyPassword : String → String → Option Bool)
    (l : Ledger) (now : Instant) : HttpResult :=
  match body with
  | none => { status := 400, cookie := .unchanged, accessToken := false, ledger := l }
  | some (emailRaw, passwordRaw) =>
    let email := trimStr (toLowerStr emailRaw)
    let password := trimStr passwordRaw
    if email.length < 4 || !(containsChar email '@') then
      { status := 401, cookie := .unchanged, accessToken := false, ledger := l }
    else if password.length < 8 then
      { status := 401, cookie := .unchanged, accessToken := false, ledger := l }
    else
      match findUser email with
      | none => { status := 401, cookie := .unchanged, accessToken := false, ledger := l }
      | some user =>
        match verifyPassword password user.passwordHash with
        | none => { status := 500, cookie := .unchanged, accessToken := false, ledger := l }
        | some false => { status := 401, cookie := .unchanged, accessToken := false, ledger := l }
        | some true =>
          if !env.mintAccessOk then
            { status := 500, cookie := .unchanged, accessToken := false, ledger := l }
          else if !env.mintRefreshOk then
            { status := 500, cookie := .unchanged, accessToken := false, ledger := l }
          else
            let tokenHash := env.hashOf env.newRefreshToken
            let l1 := if revokeExecOk then revokeAllState l user.id now else l
            match createToken l1 env.freshId user.id tokenHash now
                (now + 7 * 24 * 3600) env.userAgent env.ip with
            | .error _ =>
              { status := 500, cookie := .unchanged, accessToken := false, ledger := l1 }
            | .ok (_, l2) =>
              { status := 200, cookie := .set env.newRefreshToken, accessToken := true, ledger := l2 }

/-- AuthHandler.LogoutFromAllDevices: 401 without an authenticated user id
in the context; otherwise RevokeAllForUser, answering 500 when it reports
an error (in particular when it affected zero rows) and 200 with a cleared
cookie on success. -/
def logoutFromAllDevices (auth : Option Uuid) (l : Ledger) (now : Instant) :
    HttpResult :=
  match auth with
  | none => { status := 401, cookie := .unchanged, accessToken := false, ledger := l }
  | some userId =>
    match revokeAllForUser l userId now with
    | .error _ => { status := 500, cookie := .unchanged, accessToken := false, ledger := l }
    | .ok l1 => { status := 200, cookie := .cleared, accessToken := false, ledger := l1 }

/-! ## Team store (backend/internal/store/teams/team_store.go) -/

/-- Roles of the team_role enum (RoleOwner, RoleAdmin, RoleMember). -/
inductive TeamRole where
  | owner
  | admin
  | member
deriving Repr, DecidableEq

/-- A row of the teams table (Go struct Team). -/
structure Team where
  id : Uuid
  name : String
  ownerId : Uuid
  createdAt : Instant
  updatedAt : Instant
deriving Repr, DecidableEq

/-- A row of the team_members table (Go struct TeamMember). -/
structure TeamMember where
  teamId : Uuid
  userId : Uuid
  role : TeamRole
  createdAt : Instant
deriving Repr, DecidableEq

/-- The committed database state the team store works against. -/
structure TeamsDB where
  teams : List Team
  members : List TeamMember
deriving Repr, DecidableEq

/-- Fault injection for the storage steps of CreateTeam: BeginTx, the team
INSERT (beyond the uniqueness violation, which is modelled from state),
the member INSERT, and Commit. -/
structure TxFaults where
  beginOk : Bool
  teamInsertOk : Bool
  memberInsertOk : Bool
  commitOk : Bool
deriving Repr, DecidableEq

/-- Failure modes of PGTeamStore.CreateTeam. -/
inductive CreateTeamErr where
  | txFailed
  | nameTaken
  | insertFailed
  | commitFailed
deriving Repr, DecidableEq

/-- Whether the team INSERT raises the unique violation 23505 that the
store maps to ErrTeamNameTaken (team names unique case-insensitively). -/
def nameTakenIn (teams : List Team) (name : String) : Bool :=
  teams.any (fun t => toLowerStr t.name == toLowerStr name)

/-- PGTeamStore.CreateTeam: inside one transaction, INSERT the team row and
the owner TeamMember row with RoleOwner, then commit; on any error the
deferred rollback leaves the committed state unchanged.  Returns the
result of the call together with the committed state afterwards. -/
def createTeam (db : TeamsDB) (f : TxFaults) (freshId : Uuid)
    (ownerId : Uuid) (name : String) (now : Instant) :
    Except CreateTeamErr Team × TeamsDB :=
  if !f.beginOk then (.error .txFailed, db)
  else if nameTakenIn db.teams name then (.error .nameTaken, db)
  else if !f.teamInsertOk then (.error .insertFailed, db)
  else
    let team : Team :=
      { id := freshId, name := name, ownerId := ownerId,
        createdAt := now, updatedAt := now }
    if !f.memberInsertOk then (.error .insertFailed, db)
    else if !f.commitOk then (.error .commitFailed, db)
    else
      (.ok team,
        { teams := db.teams ++ [team],
          members := db.members ++ [{ teamId := team.id, userId := ownerId,
                                      role := .owner, createdAt := now }] })

/-! ## Task store (backend/internal/store/tasks/tasks_store.go) -/

/-- The task_status values (OpenStatus, InProgressStatus, DoneStatus,
CanceledStatus); TaskStatus is a Go string type, so an arbitrary other
string is representable. -/
inductive TaskStatus where
  | openStatus
  | inProgressStatus
  | doneStatus
  | canceledStatus
  | other (raw : String)
deriving Repr, DecidableEq

/-- A row of the tasks table (Go struct Task). -/
structure Task where
  id : Uuid
  teamId : Uuid
  title : String
  description : Option String
  reporterId : Uuid
  assigneeId : Uuid
  dueAt : Instant
  reminderSentAt : Option Instant
  status : TaskStatus
  createdAt : Instant
  updatedAt : Instant
deriving Repr, DecidableEq

/-- Go struct TaskUpdate: the patch of UpdateDetails, nil meaning absent. -/
structure TaskUpdate where
  title : Option String
  description : Option String
  dueAt : Option Instant
deriving Repr, DecidableEq

/-- Task-store failures: ErrTaskNotFound, ErrInvalidStatus, and the
ErrInvalidInput family raised by the validators. -/
inductive TaskStoreErr where
  | taskNotFound
  | invalidStatus
  | invalidInput
deriving Repr, DecidableEq

/-- validateTaskUpdate: a present title must be nonempty after trimming and
at most 500 characters; a present due_at must not be before now plus 8
hours.  All failures wrap ErrInvalidInput. -/
def validateTaskUpdate (upd : TaskUpdate) (now : Instant) :
    Except TaskStoreErr Unit :=
  match upd.title with
  | some s =>
    if (trimStr s).length = 0 then .error .invalidInput
    else if (trimStr s).length > 500 then .error .invalidInput
    else
      match upd.dueAt with
      | some d => if d < now + 8 * 3600 then .error .invalidInput else .ok ()
      | none => .ok ()
  | none =>
    match upd.dueAt with
    | some d => if d < now + 8 * 3600 then .error .invalidInput else .ok ()
    | none => .ok ()

/-- PGTaskStore.UpdateDetails: validate the patch, fetch the existing row
(ErrTaskNotFound when absent), overlay the present patch fields (title
trimmed, description and due_at as given), stamp updated_at, and UPDATE
exactly the four columns title, description, due_at, updated_at of that
row.  Returns the updated row and the table afterwards. -/
def updateDetails (tasks : List Task) (taskId : Uuid) (patch : TaskUpdate)
    (now : Instant) : Except TaskStoreErr (Task × List Task) :=
  match validateTaskUpdate patch now with
  | .error e => .error e
  | .ok _ =>
    match tasks.find? (fun t => t.id == taskId) with
    | none => .error .taskNotFound
    | some existing =>
      let newTitle := match patch.title with
        | some s => trimStr s
        | none => existing.title
      let newDescription := match patch.description with
        | some s => some s
        | none => existing.description
      let newDueAt := match patch.dueAt with
        | some d => d
        | none => existing.dueAt
      let updated := { existing with
        title := newTitle, description := newDescription,
        dueAt := newDueAt, updatedAt := now }
      let table := tasks.map (fun t =>
        if t.id == taskId then
          { t with title := newTitle, description := newDescription,
                   dueAt := newDueAt, updatedAt := now }
        else t)
      .ok (updated, table)

/-- validateTask, used by the store Create: nonempty trimmed title of at
most 500 characters, non-nil reporter and assignee, due_at not before
now. -/
def validateTask (title : String) (reporterId assigneeId : Uuid)
    (dueAt now : Instant) : Except TaskStoreErr Unit :=
  if (trimStr title).length = 0 then .error .invalidInput
  else if (trimStr title).length > 500 then .error .invalidInput
  else if reporterId == 0 then .error .invalidInput
  else if assigneeId == 0 then .error .invalidInput
  else if dueAt < now then .error .invalidInput
  else .ok ()

/-- PGTaskStore.Create: reject a nil team id, validate, then INSERT the row
(status takes the table default open, reminder_sent_at starts NULL,
created_at and updated_at both now). -/
def storeCreateTask (tasks : List Task) (freshId teamId : Uuid)
    (title : String) (description : Option String)
    (reporterId assigneeId : Uuid) (dueAt now : Instant) :
    Except TaskStoreErr (Task × List Task) :=
  if teamId == 0 then .error .invalidInput
  else
    match validateTask title reporterId assigneeId dueAt now with
    | .error e => .error e
    | .ok _ =>
      let t : Task :=
        { id := freshId, teamId := teamId, title := title,
          description := description, reporterId := reporterId,
          assigneeId := assigneeId, dueAt := dueAt, reminderSentAt := none,
          status := .openStatus, createdAt := now, updatedAt := now }
      .ok (t, tasks ++ [t])

/-- PGTaskStore.Assign: reject a nil assignee, UPDATE assignee_id and
updated_at of the row (ErrTaskNotFound when no row matches). -/
def storeAssign (tasks : List Task) (taskId newAssigneeId : Uuid)
    (now : Instant) : Except TaskStoreErr (Task × List Task) :=
  if newAssigneeId == 0 then .error .invalidInput
  else
    match tasks.find? (fun t => t.id == taskId) with
    | none => .error .taskNotFound
    | some existing =>
      let updated := { existing with assigneeId := newAssigneeId, updatedAt := now }
      let table := tasks.map (fun t =>
        if t.id == taskId then { t with assigneeId := newAssigneeId, updatedAt := now }
        else t)
      .ok (updated, table)

/-- Go isValidStatus (and the switch in the store UpdateStatus): true
exactly on the four enum values. -/
def isValidStatus : TaskStatus → Bool
  | .other _ => false
  | _ => true

/-- PGTaskStore.UpdateStatus: reject a status outside the enum, UPDATE
status and updated_at of the row (ErrTaskNotFound when no row matches). -/
def storeUpdateStatus (tasks : List Task) (taskId : Uuid)
    (newStatus : TaskStatus) (now : Instant) :
    Except TaskStoreErr (Task × List Task) :=
  if !isValidStatus newStatus then .error .invalidStatus
  else
    match tasks.find? (fun t => t.id == taskId) with
    | none => .error .taskNotFound
    | some existing =>
      let updated := { existing with status := newStatus, updatedAt := now }
      let table := tasks.map (fun t =>
        if t.id == taskId then { t with status := newStatus, updatedAt := now }
        else t)
      .ok (updated, table)

/-- PGTaskStore.DeleteTask: DELETE the row; ErrTaskNotFound when no row was
affected. -/
def storeDeleteTask (tasks : List Task) (taskId : Uuid) :
    Except TaskStoreErr (List Task) :=
  let remaining := tasks.filter (fun t => !(t.id == taskId))
  if remaining.length = tasks.length then .error .taskNotFound
  else .ok remaining

/-! ## Task handler (backend/internal/handler/task_handler/task_handler.go) -/

/-- The decoded body of CreateTask (type input in the handler). -/
structure TaskInput where
  teamId : Uuid
  title : String
  description : Option String
  assigneeId : Option Uuid
  dueAt : Instant
deriving Repr, DecidableEq

/-- Failures of the handler-level taskInputValidation. -/
inductive TaskInputErr where
  | titleLength
  | teamIdRequired
  | dueTooSoon
deriving Repr, DecidableEq

/-- taskInputValidation: trimmed title of length 1..100, team id required,
due_at at least 8 hours from now (DueAt.Before(now.Add(8h)) rejected). -/
def taskInputValidation (i : TaskInput) (now : Instant) :
    Except TaskInputErr Unit :=
  if (trimStr i.title).length < 1 || (trimStr i.title).length > 100 then .error .titleLength
  else if i.teamId == 0 then .error .teamIdRequired
  else if i.dueAt < now + 8 * 3600 then .error .dueTooSoon
  else .ok ()

/-- TaskHandler.CreateTask.  auth is the user id from the middleware
context, body the decoded JSON (none meaning a decode failure), isMember
the team store membership query (none meaning a store error).  Returns the
HTTP status and the tasks table afterwards. -/
def createTaskHandler (auth : Option Uuid) (body : Option TaskInput)
    (isMember : Uuid → Uuid → Option Bool) (tasks : List Task)
    (freshId : Uuid) (now : Instant) : Nat × List Task :=
  match auth with
  | none => (401, tasks)
  | some reporterId =>
    match body with
    | none => (400, tasks)
    | some i0 =>
      let assigneeId := match i0.assigneeId with
        | none => reporterId
        | some a => if a == 0 then reporterId else a
      match taskInputValidation i0 now with
      | .error _ => (400, tasks)
      | .ok _ =>
        match isMember i0.teamId reporterId with
        | none => (500, tasks)
        | some false => (403, tasks)
        | some true =>
          let assigneeCheck : Option Bool :=
            if assigneeId ≠ reporterId then isMember i0.teamId assigneeId
            else some true
          match assigneeCheck with
          | none => (500, tasks)
          | some false => (400, tasks)
          | some true =>
            match storeCreateTask tasks freshId i0.teamId i0.title
                i0.description reporterId assigneeId i0.dueAt now with
            | .error _ => (500, tasks)
            | .ok (_, tasks2) => (201, tasks2)

/-- TaskHandler.AssignTask: auth, task id, task fetch (404 when absent),
membership of the caller (403 when not a member), reporter-only (403),
then the body (400 on bad json or nil assignee), membership of the new
assignee (400), and the store update. -/
def assignTaskHandler (auth : Option Uuid) (taskIdParam : Option Uuid)
    (isMember : Uuid → Uuid → Option Bool) (body : Option Uuid)
    (tasks : List Task) (now : Instant) : Nat × List Task :=
  match auth with
  | none => (401, tasks)
  | some userId =>
    match taskIdParam with
    | none => (400, tasks)
    | some taskId =>
      match tasks.find? (fun t => t.id == taskId) with
      | none => (404, tasks)
      | some task =>
        match isMember task.teamId userId with
        | none => (500, tasks)
        | some false => (403, tasks)
        | some true =>
          if userId ≠ task.reporterId then (403, tasks)
          else
            match body with
            | none => (400, tasks)
            | some assigneeId =>
              if assigneeId == 0 then (400, tasks)
              else
                match isMember task.teamId assigneeId with
                | none => (500, tasks)
                | some false => (400, tasks)
                | some true =>
                  match storeAssign tasks taskId assigneeId now with
                  | .error _ => (500, tasks)
                  | .ok (_, tasks2) => (200, tasks2)

/-- TaskHandler.UpdateStatus: auth, task id, body with a valid status (400
otherwise), task fetch (404), assignee-only (403), store update. -/
def updateStatusHandler (auth : Option Uuid) (taskIdParam : Option Uuid)
    (body : Option TaskStatus) (tasks : List Task) (now : Instant) :
    Nat × List Task :=
  match auth with
  | none => (401, tasks)
  | some userId =>
    match taskIdParam with
    | none => (400, tasks)
    | some taskId =>
      match body with
      | none => (400, tasks)
      | some st =>
        if !isValidStatus st then (400, tasks)
        else
          match tasks.find? (fun t => t.id == taskId) with
          | none => (404, tasks)
          | some task =>
            if userId ≠ task.assigneeId then (403, tasks)
            else
              match storeUpdateStatus tasks taskId st now with
              | .error _ => (500, tasks)
              | .ok (_, tasks2) => (200, tasks2)

/-- TaskHandler.DeleteTask: auth, task id, task fetch (404),
reporter-only (403), store delete (404 when gone, 204 on success). -/
def deleteTaskHandler (auth : Option Uuid) (taskIdParam : Option Uuid)
    (tasks : List Task) : Nat × List Task :=
  match auth with
  | none => (401, tasks)
  | some userId =>
    match taskIdParam with
    | none => (400, tasks)
    | some taskId =>
      match tasks.find? (fun t => t.id == taskId) with
      | none => (404, tasks)
      | some task =>
        if userId ≠ task.reporterId then (403, tasks)
        else
          match storeDeleteTask tasks taskId with
          | .error _ => (404, tasks)
          | .ok tasks2 => (204, tasks2)

/-- TaskHandler.HandlePatchTask: auth, task id, task fetch (404),
reporter-only (403), body (400 on bad json, 400 when all three patch
fields are absent), then the store UpdateDetails with its error mapping
(404 for ErrTaskNotFound, 400 for ErrInvalidInput, 500 otherwise). -/
def patchTaskHandler (auth : Option Uuid) (taskIdParam : Option Uuid)
    (body : Option TaskUpdate) (tasks : List Task) (now : Instant) :
    Nat × List Task :=
  match auth with
  | none => (401, tasks)
  | some userId =>
    match taskIdParam with
    | none => (400, tasks)
    | some taskId =>
      match tasks.find? (fun t => t.id == taskId) with
      | none => (404, tasks)
      | some task =>
        if task.reporterId ≠ userId then (403, tasks)
        else
          match body with
          | none => (400, tasks)
          | some patch =>
            if patch.title = none ∧ patch.description = none ∧ patch.dueAt = none then
              (400, tasks)
            else
              match updateDetails tasks taskId patch now with
              | .error .taskNotFound => (404, tasks)
              | .error .invalidInput => (400, tasks)
              | .error _ => (500, tasks)
              | .ok (_, tasks2) => (200, tasks2)

/-! ## Ledger lemmas -/

/-- An inactive ledger after a successful Revoke: every row carrying the
revoked hash has revoked_at set. -/
theorem revoke_ok_state {l l2 : Ledger} {h : String} {now : Instant}
    (hok : revoke l h now = .ok l2) :
    l2 = l.map (fun t =>
      if revokeMatches t h then { t with revokedAt := some now } else t) := by
  unfold revoke at hok
  by_cases hz : ((l.filter (fun t => revokeMatches t h)).length == 0) = true
  · simp [hz] at hok
  · simp [hz] at hok
    exact hok.symm

/-- Rows keep their token hash and user id under the revoke map. -/
theorem revoke_map_preserves (t : RefreshToken) (h : String) (now : Instant) :
    (if revokeMatches t h then { t with revokedAt := some now } else t).tokenHash
        = t.tokenHash ∧
    (if revokeMatches t h then { t with revokedAt := some now } else t).userId
        = t.userId := by
  by_cases hm : revokeMatches t h <;> simp [hm]

/-- After a successful Revoke of a hash, every row of the new ledger that
carries that hash has revoked_at set. -/
theorem revoke_ok_hash_revoked {l l2 : Ledger} {h : String} {now : Instant}
    (hok : revoke l h now = .ok l2) :
    ∀ t ∈ l2, t.tokenHash = h → t.revokedAt.isSome := by
  have hst := revoke_ok_state hok
  subst hst
  intro t ht hhash
  rcases List.mem_map.mp ht with ⟨s, hs, hfs⟩
  by_cases hm : revokeMatches s h
  · rw [if_pos hm] at hfs
    rw [← hfs]
    rfl
  · rw [if_neg hm] at hfs
    subst hfs
    unfold revokeMatches at hm
    cases hrv : s.revokedAt with
    | some v => rfl
    | none => simp [hhash, hrv] at hm

/-- Revoke fails exactly when no row matches the hash with a null
revoked_at. -/
theorem revoke_error_iff (l : Ledger) (h : String) (now : Instant) :
    revoke l h now = .error .noRowsAffected ↔
      ∀ t ∈ l, revokeMatches t h = false := by
  unfold revoke
  by_cases hz : ((l.filter (fun t => revokeMatches t h)).length == 0) = true
  · simp only [hz, if_pos]
    simp only [beq_iff_eq, List.length_eq_zero] at hz
    simp only [List.filter_eq_nil_iff] at hz
    constructor
    · intro _ t ht
      have := hz t ht
      simpa using this
    · intro _
      trivial
  · simp only [hz, if_neg, Bool.false_eq_true, not_false_iff]
    constructor
    · intro hcontra
      cases hcontra
    · intro hall
      exfalso
      apply hz
      simp only [beq_iff_eq, List.length_eq_zero, List.filter_eq_nil_iff]
      intro t ht
      simp [hall t ht]

/-- Racing revocations fail closed: once a Revoke of a hash succeeded, a
second Revoke of the same hash reports that no row was changed. -/
theorem revoke_after_revoke {l0 l1 : Ledger} {h : String} {t1 : Instant}
    (t2 : Instant) (hok : revoke l0 h t1 = .ok l1) :
    revoke l1 h t2 = .error .noRowsAffected := by
  rw [revoke_error_iff]
  intro t ht
  by_cases hh : t.tokenHash = h
  · have hrev := revoke_ok_hash_revoked hok t ht hh
    unfold revokeMatches
    cases hrv : t.revokedAt with
    | none => rw [hrv] at hrev; cases hrev
    | some v => simp [hrv]
  · unfold revokeMatches
    simp [hh]

/-- If every row carrying a hash is revoked, GetByHash fails on that
hash. -/
theorem getByHash_error_of_all_revoked {l : Ledger} {h : String}
    (now : Instant) (hall : ∀ t ∈ l, t.tokenHash = h → t.revokedAt.isSome) :
    ∃ e, getByHash l h now = .error e := by
  unfold getByHash
  cases hf : l.find? (fun r => r.tokenHash == h) with
  | none => exact ⟨.notFound, rfl⟩
  | some u =>
    have hp := List.find?_some hf
    have hmem : u ∈ l := List.mem_of_find?_eq_some hf
    have hrev : u.revokedAt.isSome := hall u hmem (by simpa using hp)
    exact ⟨.revoked, by simp [hrev]⟩

/-- Full characterization of GetByHash: success exactly on a present row
with null revoked_at and expires_at at or after now; three distinct
failure reasons otherwise. -/
theorem getByHash_spec (l : Ledger) (h : String) (now : Instant) :
    (∀ t : RefreshToken,
        getByHash l h now = .ok t ↔
          l.find? (fun r => r.tokenHash == h) = some t ∧
            t.revokedAt = none ∧ now ≤ t.expiresAt) ∧
      (getByHash l h now = .error .notFound ↔
        l.find? (fun r => r.tokenHash == h) = none) ∧
      (∀ u, l.find? (fun r => r.tokenHash == h) = some u →
        u.revokedAt.isSome → getByHash l h now = .error .revoked) ∧
      (∀ u, l.find? (fun r => r.tokenHash == h) = some u →
        u.revokedAt = none → u.expiresAt < now →
        getByHash l h now = .error .expired) := by
  unfold getByHash
  cases hf : l.find? (fun r => r.tokenHash == h) with
  | none =>
    refine ⟨fun t => ?_, ?_, fun u hu => ?_, fun u hu => ?_⟩ <;> simp_all
  | some u =>
    by_cases hrev : u.revokedAt.isSome
    · refine ⟨fun t => ?_, ?_, fun v hv hrv => ?_, fun v hv hvnone hvexp => ?_⟩
      · simp only [hrev, if_true]
        constructor
        · intro hc
          cases hc
        · rintro ⟨hut, hnone, _⟩
          injection hut with hut
          subst hut
          rw [hnone] at hrev
          cases hrev
      · simp [hrev]
      · simp [hrev]
      · injection hv with hv
        subst hv
        rw [hvnone] at hrev
        cases hrev
    · have hnone : u.revokedAt = none := Option.not_isSome_iff_eq_none.mp hrev
      by_cases hexp : u.expiresAt < now
      · refine ⟨fun t => ?_, ?_, fun v hv hrv => ?_, fun v hv hvnone hvexp => ?_⟩
        · simp only [hrev, if_false, hexp, if_true]
          constructor
          · intro hc
            simp at hc
          · rintro ⟨hut, _, hle⟩
            injection hut with hut
            subst hut
            exact absurd hexp (not_lt.mpr hle)
        · simp [hrev, hexp]
        · injection hv with hv
          subst hv
          rw [hnone] at hrv
          cases hrv
        · simp [hrev, hexp]
      · refine ⟨fun t => ?_, ?_, fun v hv hrv => ?_, fun v hv hvnone hvexp => ?_⟩
        · simp only [hrev, if_false, hexp]
          constructor
          · intro hc
            injection hc with hc
            subst hc
            exact ⟨rfl, hnone, not_lt.mp hexp⟩
          · rintro ⟨hut, _, _⟩
            injection hut with hut
            subst hut
            simp
        · simp [hrev, hexp]
        · injection hv with hv
          subst hv
          rw [hnone] at hrv
          cases hrv
        · injection hv with hv
          subst hv
          exact absurd hvexp hexp

/-- The concrete ledger row used in counterexamples: active, expiring at
time 100. -/
def cexToken : RefreshToken :=
  { id := 1, userId := 2, tokenHash := "h1", issuedAt := 0, expiresAt := 100,
    revokedAt := none, userAgent := "ua", ip := "ip" }

/-- C2 counterexample: at now equal to expires_at the stored record is
returned even though its expires_at is not in the future, refuting the
claimed `expires_at strictly in the future` success condition. -/
theorem getByHash_boundary_counterexample :
    getByHash [cexToken] "h1" 100 = .ok cexToken ∧
      ¬ (100 : Instant) < cexToken.expiresAt := by
  constructor
  · rfl
  · decide

/-- C2 (amended): GetByHash returns the stored record iff a row with the
hash exists, its revoked_at is null, and its expires_at is at or after
now (the code accepts expires_at equal to now); otherwise it fails with
one of the three distinct reasons not-found, revoked, expired, so a
revoked or expired token never validates. -/
theorem lookup_active_trichotomy (l : Ledger) (h : String) (now : Instant) :
    (∀ t : RefreshToken,
        getByHash l h now = .ok t ↔
          l.find? (fun r => r.tokenHash == h) = some t ∧
            t.revokedAt = none ∧ now ≤ t.expiresAt) ∧
      (getByHash l h now = .error .notFound ↔
        l.find? (fun r => r.tokenHash == h) = none) ∧
      (∀ u, l.find? (fun r => r.tokenHash == h) = some u →
        u.revokedAt.isSome → getByHash l h now = .error .revoked) ∧
      (∀ u, l.find? (fun r => r.tokenHash == h) = some u →
        u.revokedAt = none → u.expiresAt < now →
        getByHash l h now = .error .expired) :=
  getByHash_spec l h now

/-- Witness for C2 at concrete inputs: the success direction and the
revoked-failure direction both evaluated on explicit rows. -/
theorem lookup_active_trichotomy_witness :
    getByHash [cexToken] "h1" 50 = .ok cexToken ∧
      getByHash [{ cexToken with revokedAt := some 10 }] "h1" 50 =
        .error .revoked := by
  constructor
  · exact ((lookup_active_trichotomy [cexToken] "h1" 50).1 cexToken).mpr
      ⟨rfl, rfl, by decide⟩
  · exact (lookup_active_trichotomy
        [{ cexToken with revokedAt := some 10 }] "h1" 50).2.2.1
      { cexToken with revokedAt := some 10 } rfl rfl

/-- C9 counterexample: Create succeeds when expires_at equals now, although
now is not strictly in the future of itself, refuting the claimed
`fails whenever expires_at is not strictly in the future`. -/
theorem create_boundary_counterexample :
    createToken [] 1 7 "h" 100 100 "ua" "ip" =
      .ok ({ id := 1, userId := 7, tokenHash := "h", issuedAt := 100,
             expiresAt := 100, revokedAt := none, userAgent := "ua", ip := "ip" },
           [{ id := 1, userId := 7, tokenHash := "h", issuedAt := 100,
              expiresAt := 100, revokedAt := none, userAgent := "ua", ip := "ip" }]) ∧
      ¬ (100 : Instant) < 100 := by
  constructor
  · rfl
  · decide

/-- C9 (amended): Create fails with the validation error exactly when the
supplied expires_at is strictly before now (expires_at equal to now is
accepted), and on success it appends a row holding exactly the
caller-supplied one-way token hash and metadata; the raw token is not
among its inputs, so only the hash is ever persisted. -/
theorem issue_validation_and_hash_only (l : Ledger) (freshId userId : Uuid)
    (tokenHash : String) (now expiresAt : Instant) (ua ip : String) :
    (createToken l freshId userId tokenHash now expiresAt ua ip =
        .error .expirationNotInFuture ↔ expiresAt < now) ∧
      (now ≤ expiresAt →
        createToken l freshId userId tokenHash now expiresAt ua ip =
          .ok ({ id := freshId, userId := userId, tokenHash := tokenHash,
                 issuedAt := now, expiresAt := expiresAt, revokedAt := none,
                 userAgent := ua, ip := ip },
               l ++ [{ id := freshId, userId := userId, tokenHash := tokenHash,
                       issuedAt := now, expiresAt := expiresAt, revokedAt := none,
                       userAgent := ua, ip := ip }])) := by
  unfold createToken
  by_cases hlt : expiresAt < now
  · refine ⟨by simp [hlt], fun hle => absurd hlt (not_lt.mpr hle)⟩
  · refine ⟨by simp [hlt], fun hle => ?_⟩
    rw [if_neg hlt]

/-- Witness for C9: a concrete successful issue one second before
expiry. -/
theorem issue_validation_witness :
    createToken [] 3 4 "hh" 5 6 "u" "i" =
      .ok ({ id := 3, userId := 4, tokenHash := "hh", issuedAt := 5,
             expiresAt := 6, revokedAt := none, userAgent := "u", ip := "i" },
           [{ id := 3, userId := 4, tokenHash := "hh", issuedAt := 5,
              expiresAt := 6, revokedAt := none, userAgent := "u", ip := "i" }]) :=
  (issue_validation_and_hash_only [] 3 4 "hh" 5 6 "u" "i").2 (by decide)

/-- C6: CreateTeam is atomic: a successful call appends exactly the team
row and the owner TeamMember row with role owner; any failing call leaves
the database unchanged; and in every resulting state in which the created
team exists, its creator is recorded as a team member with role owner. -/
theorem createTeam_atomic (db : TeamsDB) (f : TxFaults) (freshId ownerId : Uuid)
    (name : String) (now : Instant) :
    (∀ team, (createTeam db f freshId ownerId name now).1 = .ok team →
        team = { id := freshId, name := name, ownerId := ownerId,
                 createdAt := now, updatedAt := now } ∧
          (createTeam db f freshId ownerId name now).2 =
            { teams := db.teams ++ [team],
              members := db.members ++
                [{ teamId := freshId, userId := ownerId,
                   role := .owner, createdAt := now }] }) ∧
      (∀ e, (createTeam db f freshId ownerId name now).1 = .error e →
        (createTeam db f freshId ownerId name now).2 = db) ∧
      ((∀ t ∈ db.teams, t.id ≠ freshId) →
        ∀ t ∈ (createTeam db f freshId ownerId name now).2.teams, t.id = freshId →
          ({ teamId := freshId, userId := ownerId, role := .owner,
             createdAt := now } : TeamMember) ∈
            (createTeam db f freshId ownerId name now).2.members) := by
  unfold createTeam
  by_cases h1 : f.beginOk
  · by_cases h2 : nameTakenIn db.teams name
    · refine ⟨fun team hc => ?_, fun e _ => by simp [h1, h2], fun hfresh t ht hid => ?_⟩
      · simp [h1, h2] at hc
      · simp only [h1, h2] at ht
        simp at ht
        exact absurd hid (hfresh t ht)
    · by_cases h3 : f.teamInsertOk
      · by_cases h4 : f.memberInsertOk
        · by_cases h5 : f.commitOk
          · refine ⟨fun team hc => ?_, fun e hc => ?_, fun hfresh t ht hid => ?_⟩
            · simp only [h1, h2, h3, h4, h5] at hc ⊢
              simp at hc
              subst hc
              simp
            · simp [h1, h2, h3, h4, h5] at hc
            · simp only [h1, h2, h3, h4, h5] at ht ⊢
              simp
          · refine ⟨fun team hc => ?_, fun e _ => ?_, fun hfresh t ht hid => ?_⟩
            · simp [h1, h2, h3, h4, h5] at hc
            · simp [h1, h2, h3, h4, h5]
            · simp only [h1, h2, h3, h4, h5] at ht
              simp at ht
              exact absurd hid (hfresh t ht)
        · refine ⟨fun team hc => ?_, fun e _ => ?_, fun hfresh t ht hid => ?_⟩
          · simp [h1, h2, h3, h4] at hc
          · simp [h1, h2, h3, h4]
          · simp only [h1, h2, h3, h4] at ht
            simp at ht
            exact absurd hid (hfresh t ht)
      · refine ⟨fun team hc => ?_, fun e _ => ?_, fun hfresh t ht hid => ?_⟩
        · simp [h1, h2, h3] at hc
        · simp [h1, h2, h3]
        · simp only [h1, h2, h3] at ht
          simp at ht
          exact absurd hid (hfresh t ht)
  · refine ⟨fun team hc => ?_, fun e _ => ?_, fun hfresh t ht hid => ?_⟩
    · simp [h1] at hc
    · simp [h1]
    · simp only [h1] at ht
      simp at ht
      exact absurd hid (hfresh t ht)

/-- Witness for C6: the concrete happy path on an empty database. -/
theorem createTeam_atomic_witness :
    (createTeam { teams := [], members := [] }
        { beginOk := true, teamInsertOk := true, memberInsertOk := true,
          commitOk := true } 5 9 "alpha" 0).2 =
      { teams := [{ id := 5, name := "alpha", ownerId := 9,
                    createdAt := 0, updatedAt := 0 }],
        members := [{ teamId := 5, userId := 9, role := .owner,
                      createdAt := 0 }] } := by
  have h := (createTeam_atomic { teams := [], members := [] }
      { beginOk := true, teamInsertOk := true, memberInsertOk := true,
        commitOk := true } 5 9 "alpha" 0).1
    { id := 5, name := "alpha", ownerId := 9, createdAt := 0, updatedAt := 0 }
    (by rfl)
  simpa using h.2

/-- A validated creation input has due_at at least 8 hours from now. -/
theorem taskInputValidation_ok_due {i0 : TaskInput} {now : Instant}
    (h : taskInputValidation i0 now = .ok ()) :
    now + 8 * 3600 ≤ i0.dueAt := by
  unfold taskInputValidation at h
  by_cases h1 : ((trimStr i0.title).length < 1 || (trimStr i0.title).length > 100) = true
  · rw [if_pos h1] at h
    cases h
  · rw [if_neg h1] at h
    by_cases h2 : (i0.teamId == 0) = true
    · rw [if_pos h2] at h
      cases h
    · rw [if_neg h2] at h
      by_cases h3 : i0.dueAt < now + 8 * 3600
      · rw [if_pos h3] at h
        cases h
      · exact not_lt.mp h3

/-- When due_at is too soon, the creation input never validates. -/
theorem taskInputValidation_due_fails {i0 : TaskInput} {now : Instant}
    (hd : i0.dueAt < now + 8 * 3600) :
    ∃ e, taskInputValidation i0 now = .error e := by
  unfold taskInputValidation
  by_cases h1 : ((trimStr i0.title).length < 1 || (trimStr i0.title).length > 100) = true
  · exact ⟨.titleLength, by rw [if_pos h1]⟩
  · rw [if_neg h1]
    by_cases h2 : (i0.teamId == 0) = true
    · exact ⟨.teamIdRequired, by rw [if_pos h2]⟩
    · rw [if_neg h2]
      exact ⟨.dueTooSoon, by rw [if_pos hd]⟩

/-- A patch whose due_at is too soon never passes validateTaskUpdate. -/
theorem validateTaskUpdate_due_fails {patch : TaskUpdate} {now d : Instant}
    (hdue : patch.dueAt = some d) (hlt : d < now + 8 * 3600) :
    validateTaskUpdate patch now = .error .invalidInput := by
  unfold validateTaskUpdate
  cases hpt : patch.title with
  | none =>
    simp [hdue]
    linarith
  | some s =>
    by_cases h0 : (trimStr s).length = 0
    · simp [h0]
    · by_cases h5 : (trimStr s).length > 500
      · simp [h0, h5]
      · simp [h0, h5, hdue]
        linarith

/-- A validated patch that changes due_at keeps it at least 8 hours
ahead. -/
theorem validateTaskUpdate_ok_due {patch : TaskUpdate} {now d : Instant}
    (hok : validateTaskUpdate patch now = .ok ())
    (hdue : patch.dueAt = some d) :
    now + 8 * 3600 ≤ d := by
  unfold validateTaskUpdate at hok
  cases hpt : patch.title with
  | none =>
    rw [hpt, hdue] at hok
    simp at hok
    linarith
  | some s =>
    rw [hpt, hdue] at hok
    by_cases h0 : (trimStr s).length = 0
    · simp [h0] at hok
    · by_cases h5 : (trimStr s).length > 500
      · simp [h0, h5] at hok
      · simp [h0, h5] at hok
        linarith

/-- After a successful UpdateDetails whose patch carries due_at, every row
with the task id carries the new due_at. -/
theorem updateDetails_due_all {tasks tasks2 : List Task} {tid : Uuid}
    {patch : TaskUpdate} {now d : Instant} {u : Task}
    (hok : updateDetails tasks tid patch now = .ok (u, tasks2))
    (hdue : patch.dueAt = some d) :
    ∀ t ∈ tasks2, t.id = tid → t.dueAt = d := by
  unfold updateDetails at hok
  cases hv : validateTaskUpdate patch now with
  | error e => rw [hv] at hok; cases hok
  | ok uu =>
    rw [hv] at hok
    cases hf : tasks.find? (fun t => t.id == tid) with
    | none => rw [hf] at hok; cases hok
    | some existing =>
      rw [hf] at hok
      simp only [hdue] at hok
      injection hok with hok
      injection hok with hu htab
      subst htab
      intro t ht hid
      rcases List.mem_map.mp ht with ⟨s, hs, hfs⟩
      by_cases hsid : (s.id == tid) = true
      · rw [if_pos hsid] at hfs
        rw [← hfs]
      · rw [if_neg hsid] at hfs
        subst hfs
        exact absurd (by simpa using hid) hsid

/-- C7: a creation request whose due_at is less than 8 hours away fails
with BadRequest before any write, whatever the other fields; a successful
creation appends a task with due_at at least 8 hours ahead; a reporter
patch that moves due_at under 8 hours away fails with BadRequest and
leaves the table unchanged; and a successful due_at-changing patch leaves
the task with due_at at least 8 hours ahead. -/
theorem due_at_eight_hour_window (uid freshId : Uuid) (i0 : TaskInput)
    (isMember : Uuid → Uuid → Option Bool) (tasks : List Task) (now : Instant) :
    (i0.dueAt < now + 8 * 3600 →
        createTaskHandler (some uid) (some i0) isMember tasks freshId now =
          (400, tasks)) ∧
      (∀ tasks2,
        createTaskHandler (some uid) (some i0) isMember tasks freshId now =
            (201, tasks2) →
          ∃ t, tasks2 = tasks ++ [t] ∧ now + 8 * 3600 ≤ t.dueAt) ∧
      (∀ tid task patch d tasks2,
        tasks.find? (fun t => t.id == tid) = some task →
        task.reporterId = uid →
        patch.dueAt = some d →
          (d < now + 8 * 3600 →
            patchTaskHandler (some uid) (some tid) (some patch) tasks now =
              (400, tasks)) ∧
          (patchTaskHandler (some uid) (some tid) (some patch) tasks now =
              (200, tasks2) →
            now + 8 * 3600 ≤ d ∧ ∀ t ∈ tasks2, t.id = tid → t.dueAt = d)) := by
  refine ⟨?_, ?_, ?_⟩
  · intro hd
    rcases taskInputValidation_due_fails hd with ⟨e, he⟩
    simp [createTaskHandler, he]
  · intro tasks2 hrun
    cases hv : taskInputValidation i0 now with
    | error e => simp [createTaskHandler, hv] at hrun
    | ok uu =>
      cases uu
      simp only [createTaskHandler, hv] at hrun
      cases hm1 : isMember i0.teamId uid with
      | none => rw [hm1] at hrun; cases hrun
      | some b1 =>
        rw [hm1] at hrun
        cases b1 with
        | false => simp at hrun
        | true =>
          simp only at hrun
          rcases hb : (if (match i0.assigneeId with
              | none => uid
              | some a => if a == 0 then uid else a) ≠ uid then
              isMember i0.teamId (match i0.assigneeId with
                | none => uid
                | some a => if a == 0 then uid else a)
            else some true) with _ | b2
          · rw [hb] at hrun; cases hrun
          · rw [hb] at hrun
            cases b2 with
            | false => simp at hrun
            | true =>
              cases hc : storeCreateTask tasks freshId i0.teamId i0.title
                  i0.description uid (match i0.assigneeId with
                    | none => uid
                    | some a => if a == 0 then uid else a) i0.dueAt now with
              | error e => rw [hc] at hrun; cases hrun
              | ok p =>
                rw [hc] at hrun
                obtain ⟨t0, tl⟩ := p
                simp only at hrun
                have htl : tasks2 = tl := by
                  injection hrun with h1 h2
                  exact h2.symm
                unfold storeCreateTask at hc
                by_cases htm : (i0.teamId == 0) = true
                · rw [if_pos htm] at hc; cases hc
                · rw [if_neg htm] at hc
                  cases hvv : validateTask i0.title uid (match i0.assigneeId with
                      | none => uid
                      | some a => if a == 0 then uid else a) i0.dueAt now with
                  | error e => rw [hvv] at hc; cases hc
                  | ok uuu =>
                    rw [hvv] at hc
                    simp only at hc
                    injection hc with hc
                    injection hc with hct hcl
                    refine ⟨t0, ?_, ?_⟩
                    · rw [htl, ← hcl, hct]
                    · rw [← hct]
                      exact taskInputValidation_ok_due hv
  · intro tid task patch d tasks2 hfind hrep hdue
    constructor
    · intro hlt
      have hverr := validateTaskUpdate_due_fails hdue hlt
      have hne : ¬ task.reporterId ≠ uid := by simp [hrep]
      have hud : updateDetails tasks tid patch now = .error .invalidInput := by
        unfold updateDetails
        rw [hverr]
      have hnall : ¬ (patch.title = none ∧ patch.description = none ∧
          patch.dueAt = none) := by
        simp [hdue]
      simp only [patchTaskHandler, hfind]
      rw [if_neg hne]
      rw [if_neg hnall]
      simp only [hud]
    · intro hrun
      simp only [patchTaskHandler, hfind] at hrun
      have hne : ¬ task.reporterId ≠ uid := by simp [hrep]
      rw [if_neg hne] at hrun
      by_cases hall : patch.title = none ∧ patch.description = none ∧ patch.dueAt = none
      · rw [if_pos hall] at hrun; cases hrun
      · rw [if_neg hall] at hrun
        cases hupd : updateDetails tasks tid patch now with
        | error e =>
          rw [hupd] at hrun
          cases e <;> simp at hrun
        | ok p =>
          rw [hupd] at hrun
          obtain ⟨u, tl⟩ := p
          simp only at hrun
          have htl : tasks2 = tl := by
            injection hrun with h1 h2
            exact h2.symm
          have hvok : validateTaskUpdate patch now = .ok () := by
            unfold updateDetails at hupd
            cases hv : validateTaskUpdate patch now with
            | error e => rw [hv] at hupd; cases hupd
            | ok uu => cases uu; rfl
          refine ⟨validateTaskUpdate_ok_due hvok hdue, ?_⟩
          rw [htl]
          exact updateDetails_due_all hupd hdue

/-- Witness for C7: a concrete creation two hours ahead is rejected with
400 and leaves the table empty. -/
theorem due_at_eight_hour_window_witness :
    createTaskHandler (some 1)
        (some { teamId := 2, title := "t", description := none,
                assigneeId := none, dueAt := 7200 })
        (fun _ _ => some true) [] 3 0 = (400, []) :=
  (due_at_eight_hour_window 1 3
      { teamId := 2, title := "t", description := none,
        assigneeId := none, dueAt := 7200 }
      (fun _ _ => some true) [] 0).1 (by decide)

/-- C8: on an existing task, assign, delete and update-details by any
authenticated non-reporter answer 403 (not 404) whatever the body, and a
status update carrying a valid status by any non-assignee answers 403; in
each case the table is untouched. -/
theorem task_permission_forbidden (userId tid : Uuid) (task : Task)
    (tasks : List Task) (isMember : Uuid → Uuid → Option Bool) (now : Instant)
    (hfind : tasks.find? (fun t => t.id == tid) = some task) :
    (userId ≠ task.reporterId → ∀ mb, isMember task.teamId userId = some mb →
        ∀ body, assignTaskHandler (some userId) (some tid) isMember body tasks now =
          (403, tasks)) ∧
      (userId ≠ task.reporterId →
        deleteTaskHandler (some userId) (some tid) tasks = (403, tasks)) ∧
      (userId ≠ task.reporterId → ∀ body,
        patchTaskHandler (some userId) (some tid) body tasks now = (403, tasks)) ∧
      (userId ≠ task.assigneeId → ∀ st, isValidStatus st = true →
        updateStatusHandler (some userId) (some tid) (some st) tasks now =
          (403, tasks)) := by
  refine ⟨?_, ?_, ?_, ?_⟩
  · intro hne mb hm body
    simp only [assignTaskHandler, hfind, hm]
    cases mb with
    | false => rfl
    | true =>
      simp only
      rw [if_pos hne]
  · intro hne
    simp only [deleteTaskHandler, hfind]
    rw [if_pos hne]
  · intro hne body
    simp only [patchTaskHandler, hfind]
    rw [if_pos (Ne.symm hne)]
  · intro hne st hst
    simp only [updateStatusHandler, hst, Bool.not_true, Bool.false_eq_true,
      if_false, hfind]
    rw [if_pos hne]

/-- The concrete task used in the C8 witness: reporter 10, assignee 11. -/
def permTask : Task :=
  { id := 1, teamId := 2, title := "t", description := none, reporterId := 10,
    assigneeId := 11, dueAt := 100000, reminderSentAt := none,
    status := .openStatus, createdAt := 0, updatedAt := 0 }

/-- Witness for C8: user 12 is neither reporter nor assignee of the task
and receives 403 from delete and from a valid status update. -/
theorem task_permission_forbidden_witness :
    deleteTaskHandler (some 12) (some 1) [permTask] = (403, [permTask]) ∧
      updateStatusHandler (some 12) (some 1) (some .doneStatus) [permTask] 0 =
        (403, [permTask]) :=
  ⟨(task_permission_forbidden 12 1 permTask [permTask]
      (fun _ _ => some true) 0 rfl).2.1 (by decide),
   (task_permission_forbidden 12 1 permTask [permTask]
      (fun _ _ => some true) 0 rfl).2.2.2 (by decide) .doneStatus rfl⟩

/-- C10: a validated UpdateDetails changes only title, description, due_at
and updated_at; team, reporter, assignee, status, reminder_sent_at and
created_at are untouched; absent patch entries keep the stored values and
present ones are applied (title trimmed); rows with other ids are kept
as they were. -/
theorem updateDetails_frame (tasks tasks2 : List Task) (tid : Uuid)
    (patch : TaskUpdate) (now : Instant) (ex u : Task)
    (hfind : tasks.find? (fun t => t.id == tid) = some ex)
    (hok : updateDetails tasks tid patch now = .ok (u, tasks2)) :
    u.id = ex.id ∧ u.teamId = ex.teamId ∧ u.reporterId = ex.reporterId ∧
      u.assigneeId = ex.assigneeId ∧ u.status = ex.status ∧
      u.reminderSentAt = ex.reminderSentAt ∧ u.createdAt = ex.createdAt ∧
      u.updatedAt = now ∧
      (patch.title = none → u.title = ex.title) ∧
      (∀ s, patch.title = some s → u.title = trimStr s) ∧
      (patch.description = none → u.description = ex.description) ∧
      (∀ s, patch.description = some s → u.description = some s) ∧
      (patch.dueAt = none → u.dueAt = ex.dueAt) ∧
      (∀ dd, patch.dueAt = some dd → u.dueAt = dd) ∧
      (∀ t ∈ tasks, (t.id == tid) = false → t ∈ tasks2) := by
  unfold updateDetails at hok
  cases hv : validateTaskUpdate patch now with
  | error e => rw [hv] at hok; cases hok
  | ok uu =>
    rw [hv] at hok
    rw [hfind] at hok
    simp only at hok
    injection hok with hok
    injection hok with hu htab
    subst hu
    subst htab
    refine ⟨rfl, rfl, rfl, rfl, rfl, rfl, rfl, rfl, ?_, ?_, ?_, ?_, ?_, ?_, ?_⟩
    · intro h
      simp [h]
    · intro s h
      simp [h]
    · intro h
      simp [h]
    · intro s h
      simp [h]
    · intro h
      simp [h]
    · intro dd h
      simp [h]
    · intro t ht hpred
      refine List.mem_map.mpr ⟨t, ht, ?_⟩
      rw [if_neg (by simp [hpred])]

/-- The pre-state row used in the C10 witness. -/
def frameTask : Task :=
  { id := 4, teamId := 6, title := "old", description := some "d",
    reporterId := 7, assigneeId := 8, dueAt := 90000, reminderSentAt := some 1,
    status := .inProgressStatus, createdAt := 2, updatedAt := 3 }

/-- Witness for C10: a concrete description-only patch keeps every other
field of the row. -/
theorem updateDetails_frame_witness :
    ({ frameTask with description := some "nd", updatedAt := 50 } : Task).teamId =
        frameTask.teamId ∧
      ({ frameTask with description := some "nd", updatedAt := 50 } : Task).status =
        frameTask.status := by
  have h := updateDetails_frame [frameTask]
    [{ frameTask with description := some "nd", updatedAt := 50 }] 4
    { title := none, description := some "nd", dueAt := none } 50 frameTask
    { frameTask with description := some "nd", updatedAt := 50 } rfl (by rfl)
  exact ⟨h.2.1, h.2.2.2.2.1⟩

/-- GetByHash only returns rows that carry the looked-up hash. -/
theorem getByHash_ok_hash {l : Ledger} {h : String} {now : Instant}
    {t : RefreshToken} (hok : getByHash l h now = .ok t) : t.tokenHash = h := by
  have h1 := ((getByHash_spec l h now).1 t).mp hok
  have h2 := List.find?_some h1.1
  simpa using h2

/-- The refresh handler answers 401 whenever the ledger lookup of the
presented cookie fails. -/
theorem refresh_401_of_getByHash_err (env : AuthEnv) (l : Ledger)
    (now : Instant) (raw : String)
    (herr : ∃ e, getByHash l (env.hashOf raw) now = .error e) :
    (refreshAccessToken env (some raw) l now).status = 401 := by
  unfold refreshAccessToken
  cases hjv : env.jwtValid raw with
  | false => simp [hjv]
  | true =>
    rcases herr with ⟨e, he⟩
    simp [hjv, he]

/-- Decomposition of a successful rotation: the revoke of the old hash
succeeded first, and then the fresh row was appended. -/
theorem rotateRefresh_ok_inv {env : AuthEnv} {l : Ledger} {oldHash : String}
    {userId : Uuid} {now : Instant}
    (hok : (rotateRefresh env l oldHash userId now).ok = true) :
    ∃ l1, revoke l oldHash now = .ok l1 ∧
      (rotateRefresh env l oldHash userId now).ledger =
        l1 ++ [{ id := env.freshId, userId := userId,
                 tokenHash := env.hashOf env.newRefreshToken, issuedAt := now,
                 expiresAt := now + 7 * 24 * 3600, revokedAt := none,
                 userAgent := env.userAgent, ip := env.ip }] := by
  unfold rotateRefresh at hok ⊢
  cases hr : revoke l oldHash now with
  | error e =>
    rw [hr] at hok
    simp at hok
  | ok l1 =>
    rw [hr] at hok
    simp only at hok ⊢
    cases hmr : env.mintRefreshOk with
    | false =>
      rw [hmr] at hok
      simp at hok
    | true =>
      rw [hmr] at hok
      have hnl : ¬ now + 7 * 24 * 3600 < now := by linarith
      have hct : createToken l1 env.freshId userId
          (env.hashOf env.newRefreshToken) now (now + 7 * 24 * 3600)
          env.userAgent env.ip =
          .ok ({ id := env.freshId, userId := userId,
                 tokenHash := env.hashOf env.newRefreshToken, issuedAt := now,
                 expiresAt := now + 7 * 24 * 3600, revokedAt := none,
                 userAgent := env.userAgent, ip := env.ip },
               l1 ++ [{ id := env.freshId, userId := userId,
                        tokenHash := env.hashOf env.newRefreshToken,
                        issuedAt := now, expiresAt := now + 7 * 24 * 3600,
                        revokedAt := none, userAgent := env.userAgent,
                        ip := env.ip }]) := by
        unfold createToken
        rw [if_neg hnl]
      rw [hct] at hok ⊢
      simp only [Bool.not_true, Bool.false_eq_true, if_false]
      exact ⟨l1, rfl, rfl⟩

/-- Decomposition of a 200 answer of the refresh handler: the cookie hash
was found active, its row was revoked, and the fresh row was appended. -/
theorem refresh_200_inv {env : AuthEnv} {l : Ledger} {now : Instant}
    {raw : String}
    (hrun : (refreshAccessToken env (some raw) l now).status = 200) :
    ∃ stored l1, getByHash l (env.hashOf raw) now = .ok stored ∧
      stored.tokenHash = env.hashOf raw ∧
      revoke l (env.hashOf raw) now = .ok l1 ∧
      (refreshAccessToken env (some raw) l now).ledger =
        l1 ++ [{ id := env.freshId, userId := stored.userId,
                 tokenHash := env.hashOf env.newRefreshToken, issuedAt := now,
                 expiresAt := now + 7 * 24 * 3600, revokedAt := none,
                 userAgent := env.userAgent, ip := env.ip }] := by
  unfold refreshAccessToken at hrun ⊢
  simp only at hrun ⊢
  cases hjv : env.jwtValid raw with
  | false =>
    rw [hjv] at hrun
    simp at hrun
  | true =>
    rw [hjv] at hrun
    simp only [Bool.not_true, Bool.false_eq_true, if_false] at hrun ⊢
    cases hgb : getByHash l (env.hashOf raw) now with
    | error e =>
      rw [hgb] at hrun
      simp at hrun
    | ok stored =>
      rw [hgb] at hrun
      simp only at hrun ⊢
      cases hue : env.userExists stored.userId with
      | false =>
        rw [hue] at hrun
        simp at hrun
      | true =>
        rw [hue] at hrun
        simp only [Bool.not_true, Bool.false_eq_true, if_false] at hrun ⊢
        cases hma : env.mintAccessOk with
        | false =>
          rw [hma] at hrun
          simp at hrun
        | true =>
          rw [hma] at hrun
          simp only [Bool.not_true, Bool.false_eq_true, if_false] at hrun ⊢
          cases hro : (rotateRefresh env l stored.tokenHash stored.userId now).ok with
          | false =>
            rw [hro] at hrun
            simp at hrun
          | true =>
            obtain ⟨l1, hrev, hled⟩ := rotateRefresh_ok_inv hro
            have hhash : stored.tokenHash = env.hashOf raw := getByHash_ok_hash hgb
            refine ⟨stored, l1, rfl, hhash, hhash ▸ hrev, ?_⟩
            simpa using hled

/-- C1: a successful refresh leaves every ledger row carrying the presented
cookie hash revoked; replaying the same cookie against the resulting
ledger answers 401; and of two racing revocations of one hash the second
always reports no row changed, failing the rotation closed. -/
theorem refresh_rotation_single_use (env env2 : AuthEnv) (l : Ledger)
    (now now2 : Instant) (raw : String)
    (hrun : (refreshAccessToken env (some raw) l now).status = 200)
    (hfresh : env.hashOf env.newRefreshToken ≠ env.hashOf raw)
    (hsame : env2.hashOf raw = env.hashOf raw) :
    (∀ t ∈ (refreshAccessToken env (some raw) l now).ledger,
        t.tokenHash = env.hashOf raw → t.revokedAt.isSome) ∧
      (refreshAccessToken env2 (some raw)
          (refreshAccessToken env (some raw) l now).ledger now2).status = 401 ∧
      (∀ (l0 l1 : Ledger) (hsh : String) (t1 t2 : Instant),
          revoke l0 hsh t1 = .ok l1 →
            revoke l1 hsh t2 = .error .noRowsAffected) := by
  obtain ⟨stored, l1, hgb, hhash, hrev, hled⟩ := refresh_200_inv hrun
  have hall : ∀ t ∈ (refreshAccessToken env (some raw) l now).ledger,
      t.tokenHash = env.hashOf raw → t.revokedAt.isSome := by
    rw [hled]
    intro t ht hth
    rcases List.mem_append.mp ht with h1 | h2
    · exact revoke_ok_hash_revoked hrev t h1 hth
    · rw [List.mem_singleton.mp h2] at hth
      exact absurd hth hfresh
  refine ⟨hall, ?_, fun l0 l1' hsh t1 t2 hok => revoke_after_revoke t2 hok⟩
  apply refresh_401_of_getByHash_err
  rw [hsame]
  exact getByHash_error_of_all_revoked now2 hall

/-- The environment used by the C1 witness. -/
def cexEnv : AuthEnv :=
  { hashOf := fun s => if s = "raw1" then "h1" else "h2",
    jwtValid := fun _ => true, userExists := fun _ => true,
    mintAccessOk := true, mintRefreshOk := true,
    newRefreshToken := "raw2", freshId := 9, userAgent := "ua", ip := "ip" }

/-- Witness for C1: a concrete successful refresh of the cexToken cookie,
after which the replay answers 401. -/
theorem refresh_rotation_single_use_witness :
    (refreshAccessToken cexEnv (some "raw1")
        (refreshAccessToken cexEnv (some "raw1") [cexToken] 50).ledger
        60).status = 401 :=
  (refresh_rotation_single_use cexEnv cexEnv [cexToken] 50 60 "raw1"
      (by decide) (by decide) (by decide)).2.1

/-- The ledger row Login inserts for the fresh session. -/
def loginNewRow (env : AuthEnv) (userId : Uuid) (now : Instant) : RefreshToken :=
  { id := env.freshId, userId := userId,
    tokenHash := env.hashOf env.newRefreshToken, issuedAt := now,
    expiresAt := now + 7 * 24 * 3600, revokedAt := none,
    userAgent := env.userAgent, ip := env.ip }

/-- After the RevokeAllForUser UPDATE, every row of the user has
revoked_at set. -/
theorem revokeAllState_user_revoked (l : Ledger) (uid : Uuid) (now : Instant) :
    ∀ t ∈ revokeAllState l uid now, t.userId = uid → t.revokedAt.isSome := by
  intro t ht huid
  rcases List.mem_map.mp ht with ⟨s, hs, hfs⟩
  by_cases hm : revokeAllMatches s uid
  · rw [if_pos hm] at hfs
    rw [← hfs]
    rfl
  · rw [if_neg hm] at hfs
    subst hfs
    unfold revokeAllMatches at hm
    cases hrv : s.revokedAt with
    | some v => rfl
    | none => simp [huid, hrv] at hm

/-- C4 (amended): every 200 answer of Login set the new refresh cookie and
carried an access token, and the one-session revocation is best effort:
when the discarded RevokeAllForUser UPDATE executed, all prior active
refresh tokens of the resolved user were revoked before the fresh row was
inserted and the fresh row is the user's only active one afterwards; when
that Exec failed, Login still answers 200 and the prior rows survive
untouched next to the fresh one. -/
theorem login_one_session (env : AuthEnv) (revokeExecOk : Bool)
    (body : Option (String × String)) (findUser : String → Option User)
    (verifyPassword : String → String → Option Bool) (l : Ledger)
    (now : Instant)
    (hrun : (login env revokeExecOk body findUser verifyPassword l
        now).status = 200) :
    ∃ user : User,
      (login env revokeExecOk body findUser verifyPassword l now).cookie =
          .set env.newRefreshToken ∧
        (login env revokeExecOk body findUser verifyPassword l
            now).accessToken = true ∧
        (revokeExecOk = true →
          (login env revokeExecOk body findUser verifyPassword l
              now).ledger =
              revokeAllState l user.id now ++ [loginNewRow env user.id now] ∧
            (∀ t ∈ l, t.userId = user.id → t.revokedAt = none →
              { t with revokedAt := some now } ∈
                (login env revokeExecOk body findUser verifyPassword l
                  now).ledger) ∧
            (∀ t ∈ (login env revokeExecOk body findUser verifyPassword l
                now).ledger,
              t.userId = user.id → t.revokedAt = none →
                t = loginNewRow env user.id now)) ∧
        (revokeExecOk = false →
          (login env revokeExecOk body findUser verifyPassword l
              now).ledger = l ++ [loginNewRow env user.id now]) := by
  cases body with
  | none =>
    unfold login at hrun
    simp at hrun
  | some pair =>
    obtain ⟨emailRaw, passwordRaw⟩ := pair
    unfold login at hrun ⊢
    simp only at hrun ⊢
    cases hc1 : ((trimStr (toLowerStr emailRaw)).length < 4 ||
        !(containsChar (trimStr (toLowerStr emailRaw)) '@')) with
    | true =>
      rw [hc1] at hrun
      simp at hrun
    | false =>
      rw [hc1] at hrun
      simp only [Bool.false_eq_true, if_false] at hrun ⊢
      by_cases hc2 : (trimStr passwordRaw).length < 8
      · rw [if_pos hc2] at hrun
        simp at hrun
      · rw [if_neg hc2] at hrun ⊢
        cases hfu : findUser (trimStr (toLowerStr emailRaw)) with
        | none =>
          rw [hfu] at hrun
          simp at hrun
        | some user =>
          rw [hfu] at hrun
          simp only at hrun ⊢
          cases hvp : verifyPassword (trimStr passwordRaw) user.passwordHash with
          | none =>
            rw [hvp] at hrun
            simp at hrun
          | some vb =>
            rw [hvp] at hrun
            cases vb with
            | false => simp at hrun
            | true =>
              simp only at hrun ⊢
              cases hma : env.mintAccessOk with
              | false =>
                rw [hma] at hrun
                simp at hrun
              | true =>
                rw [hma] at hrun
                simp only [Bool.not_true, Bool.false_eq_true, if_false]
                  at hrun ⊢
                cases hmr : env.mintRefreshOk with
                | false =>
                  rw [hmr] at hrun
                  simp at hrun
                | true =>
                  rw [hmr] at hrun
                  simp only [Bool.not_true, Bool.false_eq_true, if_false]
                    at hrun ⊢
                  have hnl : ¬ now + 7 * 24 * 3600 < now := by linarith
                  cases hre : revokeExecOk with
                  | true =>
                    rw [hre] at hrun
                    simp only [eq_self_iff_true, if_true] at hrun ⊢
                    have hct : createToken (revokeAllState l user.id now)
                        env.freshId user.id (env.hashOf env.newRefreshToken)
                        now (now + 7 * 24 * 3600) env.userAgent env.ip =
                        .ok (loginNewRow env user.id now,
                          revokeAllState l user.id now ++
                            [loginNewRow env user.id now]) := by
                      unfold createToken loginNewRow
                      rw [if_neg hnl]
                    rw [hct] at hrun ⊢
                    simp only at hrun ⊢
                    refine ⟨user, trivial, trivial,
                      fun _ => ⟨rfl, ?_, ?_⟩, fun h => False.elim (by simpa using h)⟩
                    · intro t ht huid hnone
                      apply List.mem_append_left
                      refine List.mem_map.mpr ⟨t, ht, ?_⟩
                      have hm : revokeAllMatches t user.id = true := by
                        unfold revokeAllMatches
                        simp [huid, hnone]
                      rw [if_pos hm]
                    · intro t ht huid hnone
                      rcases List.mem_append.mp ht with h1 | h2
                      · have := revokeAllState_user_revoked l user.id now t h1 huid
                        rw [hnone] at this
                        cases this
                      · exact List.mem_singleton.mp h2
                  | false =>
                    rw [hre] at hrun
                    simp only [Bool.false_eq_true, if_false] at hrun ⊢
                    have hct : createToken l
                        env.freshId user.id (env.hashOf env.newRefreshToken)
                        now (now + 7 * 24 * 3600) env.userAgent env.ip =
                        .ok (loginNewRow env user.id now,
                          l ++ [loginNewRow env user.id now]) := by
                      unfold createToken loginNewRow
                      rw [if_neg hnl]
                    rw [hct] at hrun ⊢
                    simp only at hrun ⊢
                    exact ⟨user, trivial, trivial,
                      fun h => False.elim (by simpa using h), fun _ => rfl⟩

/-- The environment used by the C4 and C5 witnesses. -/
def cexEnv2 : AuthEnv :=
  { hashOf := fun s => s ++ "#", jwtValid := fun _ => true,
    userExists := fun _ => true, mintAccessOk := true, mintRefreshOk := true,
    newRefreshToken := "fresh", freshId := 3, userAgent := "ua", ip := "ip" }

/-- C4 counterexample: with the discarded RevokeAllForUser Exec failing,
Login still answers 200 while the user's prior refresh token (user 2, not
revoked) is still present and active in the resulting ledger, refuting
the claim that every successful login revokes all prior active tokens. -/
theorem login_revoke_failure_counterexample :
    (login cexEnv2 false (some ("a@b.de", "longpassword"))
        (fun _ => some { id := 2, email := "a@b.de", passwordHash := "ph",
                         userType := "employee" })
        (fun _ _ => some true) [cexToken] 50).status = 200 ∧
      cexToken ∈ (login cexEnv2 false (some ("a@b.de", "longpassword"))
        (fun _ => some { id := 2, email := "a@b.de", passwordHash := "ph",
                         userType := "employee" })
        (fun _ _ => some true) [cexToken] 50).ledger ∧
      cexToken.userId = 2 ∧ cexToken.revokedAt = none := by
  refine ⟨by decide, by decide, rfl, rfl⟩

/-- Witness for C4: a concrete login whose revoke UPDATE executed sets the
fresh refresh cookie and answers with an access token, leaving only the
fresh session active. -/
theorem login_one_session_witness :
    (login cexEnv2 true (some ("a@b.de", "longpassword"))
        (fun _ => some { id := 2, email := "a@b.de", passwordHash := "ph",
                         userType := "employee" })
        (fun _ _ => some true) [cexToken] 50).cookie =
        .set cexEnv2.newRefreshToken ∧
      (login cexEnv2 true (some ("a@b.de", "longpassword"))
        (fun _ => some { id := 2, email := "a@b.de", passwordHash := "ph",
                         userType := "employee" })
        (fun _ _ => some true) [cexToken] 50).accessToken = true := by
  obtain ⟨user, hcook, hacc, _, _⟩ := login_one_session cexEnv2 true
    (some ("a@b.de", "longpassword"))
    (fun _ => some { id := 2, email := "a@b.de", passwordHash := "ph",
                     userType := "employee" })
    (fun _ _ => some true) [cexToken] 50 (by decide)
  exact ⟨hcook, hacc⟩

/-- RevokeAllForUser succeeds exactly when the user has an active row, and
then commits the full UPDATE. -/
theorem revokeAllForUser_ok_of_active {l : Ledger} {uid : Uuid}
    (now : Instant) (hactive : ∃ t ∈ l, revokeAllMatches t uid = true) :
    revokeAllForUser l uid now = .ok (revokeAllState l uid now) := by
  unfold revokeAllForUser revokeAllState
  have hlen : ¬ (((l.filter (fun t => revokeAllMatches t uid)).length == 0) = true) := by
    simp only [beq_iff_eq, List.length_eq_zero, List.filter_eq_nil_iff]
    rcases hactive with ⟨t, ht, hm⟩
    intro hall
    exact absurd hm (by simpa using hall t ht)
  rw [if_neg hlen]

/-- In the revoked state, looking up any hash of one of the user's rows
fails (the ledger carries pairwise-distinct hashes). -/
theorem revokeAllState_getByHash_err (l : Ledger) (uid : Uuid)
    (now now2 : Instant) (t : RefreshToken) (ht : t ∈ l)
    (huid : t.userId = uid)
    (huniq : ∀ a ∈ l, ∀ b ∈ l, a.tokenHash = b.tokenHash → a = b) :
    ∃ e, getByHash (revokeAllState l uid now) t.tokenHash now2 = .error e := by
  apply getByHash_error_of_all_revoked
  intro u hu hhash
  rcases List.mem_map.mp hu with ⟨s, hs, hfs⟩
  by_cases hm : revokeAllMatches s uid
  · rw [if_pos hm] at hfs
    rw [← hfs]
    rfl
  · rw [if_neg hm] at hfs
    subst hfs
    have hst : s = t := huniq s hs t ht hhash
    subst hst
    unfold revokeAllMatches at hm
    cases hrv : s.revokedAt with
    | some v => rfl
    | none => simp [huid, hrv] at hm

/-- C5 counterexample: with zero active refresh tokens the handler answers
500, not 200, because RevokeAllForUser reports that no row was changed and
the handler maps that error to InternalError. -/
theorem logout_all_zero_tokens_counterexample :
    logoutFromAllDevices (some 1) [] 0 =
      { status := 500, cookie := .unchanged, accessToken := false,
        ledger := [] } := rfl

/-- C5 (amended): for an authenticated user holding at least one active
refresh token, logout-all answers 200, clears the cookie, revokes every
row of the user, and afterwards any refresh attempt presenting any
previously issued token of that user answers 401; with zero active rows
the handler instead answers 500. -/
theorem logout_all_revokes_all (uid : Uuid) (l : Ledger) (now : Instant)
    (huniq : ∀ a ∈ l, ∀ b ∈ l, a.tokenHash = b.tokenHash → a = b)
    (hactive : ∃ t ∈ l, revokeAllMatches t uid = true) :
    (logoutFromAllDevices (some uid) l now).status = 200 ∧
      (logoutFromAllDevices (some uid) l now).cookie = .cleared ∧
      (logoutFromAllDevices (some uid) l now).ledger =
        revokeAllState l uid now ∧
      (∀ t ∈ (logoutFromAllDevices (some uid) l now).ledger,
        t.userId = uid → t.revokedAt.isSome) ∧
      (∀ t ∈ l, t.userId = uid → ∀ env2 : AuthEnv, ∀ now2 raw,
        env2.hashOf raw = t.tokenHash →
          (refreshAccessToken env2 (some raw)
              (logoutFromAllDevices (some uid) l now).ledger now2).status =
            401) := by
  have hrv := revokeAllForUser_ok_of_active now hactive
  have hres : logoutFromAllDevices (some uid) l now =
      { status := 200, cookie := .cleared, accessToken := false,
        ledger := revokeAllState l uid now } := by
    unfold logoutFromAllDevices
    simp only
    rw [hrv]
  rw [hres]
  refine ⟨rfl, rfl, rfl, revokeAllState_user_revoked l uid now, ?_⟩
  intro t ht huid env2 now2 raw hhash
  apply refresh_401_of_getByHash_err
  rw [hhash]
  exact revokeAllState_getByHash_err l uid now now2 t ht huid huniq

/-- Witness for C5: the concrete user 2 with one active row logs out
everywhere and the replay of that row's cookie answers 401. -/
theorem logout_all_revokes_all_witness :
    (logoutFromAllDevices (some 2) [cexToken] 50).status = 200 ∧
      (refreshAccessToken cexEnv (some "raw1")
          (logoutFromAllDevices (some 2) [cexToken] 50).ledger 60).status =
        401 := by
  have h := logout_all_revokes_all 2 [cexToken] 50
    (by
      intro a ha b hb hab
      rw [List.mem_singleton.mp ha, List.mem_singleton.mp hb])
    ⟨cexToken, by simp, by decide⟩
  refine ⟨h.1, ?_⟩
  have h401 := h.2.2.2.2 cexToken (by simp) rfl cexEnv 60 "raw1" (by decide)
  exact h401

/-- The registered-claim checks under the manager options, spelled out:
exp present and inside the 30-second leeway, iat and nbf (when present)
inside the leeway, issuer equal to the configured one.  There is no
audience condition. -/
theorem validateClaims_manager_iff (cfg : JwtConfig) (c : JwtClaims)
    (now : Instant) :
    validateClaims (managerParserOpts cfg) c now = .ok () ↔
      ((∃ e, c.expiresAt = some e ∧ now < e + 30) ∧
        (∀ i, c.issuedAt = some i → i - 30 ≤ now) ∧
        (∀ n, c.notBefore = some n → n - 30 ≤ now) ∧
        c.issuer = cfg.issuer) := by
  unfold validateClaims validateIat validateNbf validateIss managerParserOpts
  cases hexp : c.expiresAt with
  | none => simp
  | some e =>
    by_cases he : now < e + 30
    · cases hiat : c.issuedAt with
      | none =>
        cases hnbf : c.notBefore with
        | none =>
          by_cases hiss : c.issuer = cfg.issuer <;> simp [he, hiss]
        | some n =>
          by_cases hn : n - 30 ≤ now
          · by_cases hiss : c.issuer = cfg.issuer <;>
              simp [he, hn, hiss] <;> linarith
          · simp [he, hn]
            intro h
            exfalso
            linarith
      | some i =>
        by_cases hi : i - 30 ≤ now
        · cases hnbf : c.notBefore with
          | none =>
            by_cases hiss : c.issuer = cfg.issuer <;>
              simp [he, hi, hiss] <;> linarith
          | some n =>
            by_cases hn : n - 30 ≤ now
            · by_cases hiss : c.issuer = cfg.issuer <;>
                simp [he, hi, hn, hiss] <;> constructor <;> linarith
            · simp [he, hi, hn]
              intro h1 h2
              exfalso
              linarith
        · simp [he, hi]
          intro h1 h2
          exfalso
          linarith
    · simp [he]

/-- ParseWithClaims succeeds exactly on an allowed algorithm, a signature
recomputed over the token claims with the handed key, and passing claim
checks; a success always returns the token claims themselves. -/
theorem parseWithClaims_ok_iff (opts : ParserOpts) (key : String)
    (tok : Token) (now : Instant) :
    (parseWithClaims opts key tok now = .ok tok.claims ↔
        (tok.alg ∈ opts.validMethods ∧
          tok.sig = { key := key, alg := tok.alg, payload := tok.claims } ∧
          validateClaims opts tok.claims now = .ok ())) ∧
      (∀ c, parseWithClaims opts key tok now = .ok c → c = tok.claims) := by
  unfold parseWithClaims
  by_cases halg : tok.alg ∈ opts.validMethods
  · by_cases hsig : tok.sig =
        { key := key, alg := tok.alg, payload := tok.claims }
    · rw [if_neg (by simpa using halg), if_neg (by simpa using hsig)]
      cases hvc : validateClaims opts tok.claims now with
      | error e => simp [halg, hsig, hvc]
      | ok u =>
        cases u
        simp [halg, hsig, hvc]
    · rw [if_neg (by simpa using halg), if_pos (by simpa using hsig)]
      simp [hsig]
  · rw [if_pos (by simpa using halg)]
    simp [halg]

/-- C3 (amended): both Validate functions verify the HS256 algorithm, the
signature against their own secret, the required expiration, issued-at
and not-before with the 30-second leeway, and the issuer; the audience is
embedded at mint time but never checked at validation. -/
theorem validate_token_checks (cfg : JwtConfig) (tok : Token) (now : Instant) :
    (validateAccessToken cfg tok now = .ok tok.claims ↔
        (tok.alg = .HS256 ∧
          tok.sig = { key := cfg.accessSecret, alg := tok.alg,
                      payload := tok.claims } ∧
          (∃ e, tok.claims.expiresAt = some e ∧ now < e + 30) ∧
          (∀ i, tok.claims.issuedAt = some i → i - 30 ≤ now) ∧
          (∀ n, tok.claims.notBefore = some n → n - 30 ≤ now) ∧
          tok.claims.issuer = cfg.issuer)) ∧
      (validateRefreshToken cfg tok now = .ok tok.claims ↔
        (tok.alg = .HS256 ∧
          tok.sig = { key := cfg.refreshSecret, alg := tok.alg,
                      payload := tok.claims } ∧
          (∃ e, tok.claims.expiresAt = some e ∧ now < e + 30) ∧
          (∀ i, tok.claims.issuedAt = some i → i - 30 ≤ now) ∧
          (∀ n, tok.claims.notBefore = some n → n - 30 ≤ now) ∧
          tok.claims.issuer = cfg.issuer)) ∧
      (∀ c, validateAccessToken cfg tok now = .ok c → c = tok.claims) ∧
      (∀ c, validateRefreshToken cfg tok now = .ok c → c = tok.claims) ∧
      (∀ uid email ut mnow,
        (mintAccessToken cfg uid email ut mnow).claims.audience =
          frontendAudience) := by
  have hmem : (tok.alg ∈ (managerParserOpts cfg).validMethods) ↔
      tok.alg = .HS256 := by
    unfold managerParserOpts
    simp
  refine ⟨?_, ?_, ?_, ?_, fun uid email ut mnow => rfl⟩
  · rw [show validateAccessToken cfg tok now =
        parseWithClaims (managerParserOpts cfg) cfg.accessSecret tok now from rfl]
    rw [(parseWithClaims_ok_iff (managerParserOpts cfg) cfg.accessSecret
        tok now).1]
    rw [validateClaims_manager_iff, hmem]
  · rw [show validateRefreshToken cfg tok now =
        parseWithClaims (managerParserOpts cfg) cfg.refreshSecret tok now from rfl]
    rw [(parseWithClaims_ok_iff (managerParserOpts cfg) cfg.refreshSecret
        tok now).1]
    rw [validateClaims_manager_iff, hmem]
  · exact (parseWithClaims_ok_iff (managerParserOpts cfg) cfg.accessSecret
      tok now).2
  · exact (parseWithClaims_ok_iff (managerParserOpts cfg) cfg.refreshSecret
      tok now).2

/-- The configuration of the C3 token examples. -/
def cexJwtCfg : JwtConfig :=
  { accessSecret := "as", refreshSecret := "rs", accessTokenExpiry := 900,
    refreshTokenExpiry := 604800, issuer := "interactive-todo" }

/-- Claims carrying a foreign audience but otherwise valid. -/
def cexClaims : JwtClaims :=
  { userId := 1, email := "a@b.com", userType := "employee",
    issuer := "interactive-todo", audience := ["evil"], subject := "1",
    issuedAt := some 0, notBefore := some 0, expiresAt := some 900 }

/-- A token over cexClaims, correctly signed with the access secret. -/
def cexJwt : Token :=
  { alg := .HS256, claims := cexClaims,
    sig := { key := "as", alg := .HS256, payload := cexClaims } }

/-- C3 counterexample: a correctly signed token whose audience differs
from the one minted into every token still validates, refuting the
claimed audience verification. -/
theorem validate_ignores_audience_counterexample :
    validateAccessToken cexJwtCfg cexJwt 100 = .ok cexClaims ∧
      cexClaims.audience ≠ frontendAudience := by
  constructor
  · rfl
  · decide

/-- Witness for C3: the example token satisfies exactly the checks the
validator performs. -/
theorem validate_token_checks_witness :
    validateAccessToken cexJwtCfg cexJwt 100 = .ok cexJwt.claims :=
  ((validate_token_checks cexJwtCfg cexJwt 100).1).mpr
    ⟨rfl, rfl, ⟨900, rfl, by decide⟩,
     fun i hi => by cases hi; decide,
     fun n hn => by cases hn; decide,
     rfl⟩

end InteractiveTodo
